import Mathlib

/-!
Verification of the F1 tyre-strategy pipeline (DS210 final project).

The Rust sources are embedded shallowly:
* `data.rs` — `ProcessedLapData`, the per-driver time-delta computation in
  `DataProcessor::new`, and the stint segmentation loop of
  `calculate_average_stint_lengths`;
* `model.rs` — `DegradationModel` with its per-compound optional fitted
  regression, `build_model`'s sample-count guard, and `predict_degradation`;
* `strategy.rs` — the five strategy templates of
  `StrategySimulator::simulate_and_print`, the post-construction integrity
  re-check, and the scoring loop.

`f64` values are modelled as rationals (`ℚ`); `u32` values as `Nat`
(`saturating_sub` is `Nat` subtraction). All definitions are executable.
-/

/-- Embeds `ProcessedLapData` from `data.rs`. `f64` fields are rationals. -/
structure Lap where
  driver : String
  lapNumber : Nat
  compound : String
  tyreLife : Nat
  lapTimeSeconds : ℚ
  trackTemp : ℚ
  timeDelta : ℚ
  isPitOutLap : Bool
  isPitInLap : Bool
  deriving Repr, DecidableEq

/-- A closed stint as produced by the segmentation loop in
`calculate_average_stint_lengths` (data.rs): the running `compound`, the
running `start_lap`, and the lap number of the boundary lap. -/
structure Stint where
  compound : String
  startLap : Nat
  endLap : Nat
  deriving Repr, DecidableEq

/-- `len = curr.lap_number - start_lap + 1` as computed at a stint boundary. -/
def stintLen (s : Stint) : Nat := s.endLap - s.startLap + 1

/-- The boundary test of data.rs line 107–108 for a lap `curr` followed by
`next`: `curr.is_pit_in_lap || next_is_pit_out || (next_compound != curr.compound
&& !next_is_pit_out)` (the `is_last` disjunct is the `[]` case of `segGo`). -/
def isStintEnd (curr next : Lap) : Bool :=
  curr.isPitInLap || next.isPitOutLap ||
    (decide (next.compound ≠ curr.compound) && !next.isPitOutLap)

/-- The segmentation loop of `calculate_average_stint_lengths` (data.rs
lines 100–125), with running state `start_lap` and `compound`, the current
lap `curr`, and the remaining laps. On a boundary the stint
`[start, curr.lap_number]` is recorded when its length is positive, and the
state is re-initialised from the next lap. The last lap is always a
boundary (`is_last`). -/
def segGo (start : Nat) (comp : String) (curr : Lap) : List Lap → List Stint
  | [] =>
    if curr.lapNumber - start + 1 > 0 then [⟨comp, start, curr.lapNumber⟩] else []
  | next :: rest =>
    if isStintEnd curr next then
      (if curr.lapNumber - start + 1 > 0 then [⟨comp, start, curr.lapNumber⟩] else []) ++
        segGo next.lapNumber next.compound next rest
    else
      segGo start comp next rest

/-- Stints of one driver's sorted lap list: state initialised from the first
lap (data.rs lines 97–98); the empty list yields no stints. -/
def segmentStints : List Lap → List Stint
  | [] => []
  | l :: rest => segGo l.lapNumber l.compound l rest

/-- Sum of the recorded stint lengths. -/
def sumLens (stints : List Stint) : Nat := (stints.map stintLen).sum

/-- The stint lengths pushed into the `medium_stints` vector: recorded stints
whose running compound is `"MEDIUM"`, in order. -/
def mediumStintLens (laps : List Lap) : List Nat :=
  ((segmentStints laps).filter (fun s => s.compound == "MEDIUM")).map stintLen

/-- The stint lengths pushed into the `hard_stints` vector. -/
def hardStintLens (laps : List Lap) : List Nat :=
  ((segmentStints laps).filter (fun s => s.compound == "HARD")).map stintLen

/-- The `avg` closure of data.rs lines 128–130: default when no stints,
otherwise the arithmetic mean. -/
def avgOrDefault (stints : List Nat) (default : ℚ) : ℚ :=
  if stints = [] then default else (stints.sum : ℚ) / (stints.length : ℚ)

/-- `calculate_average_stint_lengths` (data.rs lines 92–133) over the list of
per-driver lap lists: empty drivers are skipped, medium and hard stint
lengths are collected across drivers, and averaged with defaults 14 and 42. -/
def calculate_average_stint_lengths (data : List (List Lap)) : ℚ × ℚ :=
  let nonEmpty := data.filter (fun l => !l.isEmpty)
  let med := (nonEmpty.map mediumStintLens).flatten
  let hard := (nonEmpty.map hardStintLens).flatten
  (avgOrDefault med 14, avgOrDefault hard 42)

/-- Lap number of the last lap of `curr :: rest`. -/
def lastLapNum (curr : Lap) : List Lap → Nat
  | [] => curr.lapNumber
  | next :: rest => lastLapNum next rest

/-- Lap numbers from `curr` on are gap-free: each lap's number is its
predecessor's plus one. -/
def contiguousFrom (curr : Lap) : List Lap → Bool
  | [] => true
  | next :: rest => next.lapNumber == curr.lapNumber + 1 && contiguousFrom next rest

/-- A whole lap list is contiguous. -/
def contiguous : List Lap → Bool
  | [] => true
  | l :: rest => contiguousFrom l rest

/-- How many of the stints contain lap number `n` in their
`[startLap, endLap]` range. -/
def countInStints (n : Nat) (stints : List Stint) : Nat :=
  stints.countP (fun s => decide (s.startLap ≤ n ∧ n ≤ s.endLap))

theorem lastLapNum_ge (rest : List Lap) : ∀ curr : Lap,
    contiguousFrom curr rest = true → curr.lapNumber ≤ lastLapNum curr rest := by
  induction rest with
  | nil => intro curr _; exact Nat.le_refl _
  | cons next rest ih =>
    intro curr h
    simp only [contiguousFrom, Bool.and_eq_true, beq_iff_eq] at h
    calc curr.lapNumber ≤ next.lapNumber := by omega
      _ ≤ lastLapNum next rest := ih next h.2

theorem segGo_sumLens (rest : List Lap) : ∀ (curr : Lap) (start : Nat) (comp : String),
    start ≤ curr.lapNumber → contiguousFrom curr rest = true →
    sumLens (segGo start comp curr rest) = (curr.lapNumber - start) + 1 + rest.length := by
  induction rest with
  | nil =>
    intro curr start comp hle _
    simp [segGo, sumLens, stintLen]
  | cons next rest ih =>
    intro curr start comp hle hcont
    simp only [contiguousFrom, Bool.and_eq_true, beq_iff_eq] at hcont
    obtain ⟨hnext, hrest⟩ := hcont
    by_cases hb : isStintEnd curr next = true
    · have h2 := ih next next.lapNumber next.compound (Nat.le_refl _) hrest
      simp only [segGo, hb, if_true, Nat.add_pos_right, sumLens, List.map_append,
        List.sum_append]
      rw [if_pos (by omega)]
      simp only [List.map_cons, List.map_nil, List.sum_cons, List.sum_nil, stintLen]
      have : sumLens (segGo next.lapNumber next.compound next rest) =
          next.lapNumber - next.lapNumber + 1 + rest.length := h2
      simp only [sumLens] at this
      rw [this]
      simp only [List.length_cons]
      omega
    · have h2 := ih next start comp (by omega) hrest
      simp only [segGo, hb, if_false, Bool.false_eq_true]
      simp only [sumLens] at h2 ⊢
      rw [h2]
      simp only [List.length_cons]
      omega

theorem segGo_countInStints (rest : List Lap) :
    ∀ (curr : Lap) (start : Nat) (comp : String) (n : Nat),
    start ≤ curr.lapNumber → contiguousFrom curr rest = true →
    countInStints n (segGo start comp curr rest) =
      if start ≤ n ∧ n ≤ lastLapNum curr rest then 1 else 0 := by
  induction rest with
  | nil =>
    intro curr start comp n hle _
    simp only [segGo, lastLapNum, countInStints]
    rw [if_pos (by omega)]
    simp only [List.countP_cons, List.countP_nil, decide_eq_true_eq]
    split_ifs <;> omega
  | cons next rest ih =>
    intro curr start comp n hle hcont
    simp only [contiguousFrom, Bool.and_eq_true, beq_iff_eq] at hcont
    obtain ⟨hnext, hrest⟩ := hcont
    have hlast : next.lapNumber ≤ lastLapNum next rest := lastLapNum_ge rest next hrest
    by_cases hb : isStintEnd curr next = true
    · have h2 := ih next next.lapNumber next.compound n (Nat.le_refl _) hrest
      simp only [segGo, hb, if_true, lastLapNum]
      rw [if_pos (by omega)]
      simp only [countInStints, List.countP_append, List.countP_cons, List.countP_nil,
        decide_eq_true_eq]
      simp only [countInStints] at h2
      rw [h2]
      split_ifs <;> omega
    · have h2 := ih next start comp n (by omega) hrest
      simp only [segGo, hb, if_false, Bool.false_eq_true, lastLapNum]
      exact h2

theorem mem_lapNumber_bounds (rest : List Lap) : ∀ (curr x : Lap),
    contiguousFrom curr rest = true → x ∈ curr :: rest →
    curr.lapNumber ≤ x.lapNumber ∧ x.lapNumber ≤ lastLapNum curr rest := by
  induction rest with
  | nil =>
    intro curr x _ hx
    simp only [List.mem_cons, List.not_mem_nil, or_false] at hx
    subst hx
    exact ⟨Nat.le_refl _, Nat.le_refl _⟩
  | cons next rest ih =>
    intro curr x hcont hx
    simp only [contiguousFrom, Bool.and_eq_true, beq_iff_eq] at hcont
    obtain ⟨hnext, hrest⟩ := hcont
    have hlast : next.lapNumber ≤ lastLapNum next rest := lastLapNum_ge rest next hrest
    rcases List.mem_cons.mp hx with h | h
    · subst h
      exact ⟨Nat.le_refl _, by simp only [lastLapNum]; omega⟩
    · have hb := ih next x hrest h
      exact ⟨by omega, by simp only [lastLapNum]; omega⟩

/-- A driver whose two laps are numbered 1 and 5 (same compound, no pit
flags): the single recorded stint is `[1, 5]` of length 5, not 2. -/
def C1exLaps : List Lap :=
  [⟨"VER", 1, "MEDIUM", 0, 90, 30, 0, false, false⟩,
   ⟨"VER", 5, "MEDIUM", 4, 91, 30, 1, false, false⟩]

/-- C1 counterexample: on a sorted lap sequence with non-contiguous lap
numbers (laps 1 and 5), the sum of the stint lengths produced by the
segmentation loop is 5, which differs from the number of laps (2) — the
claimed partition equality fails for non-contiguous inputs. -/
theorem C1_counterexample :
    sumLens (segmentStints C1exLaps) = 5 ∧ C1exLaps.length = 2 ∧
      sumLens (segmentStints C1exLaps) ≠ C1exLaps.length := by
  refine ⟨by decide, by decide, by decide⟩

/-- C1 (amended): for every chronologically sorted lap sequence of one
driver whose lap numbers are contiguous (gap-free), the stints produced by
the segmentation loop of `calculate_average_stint_lengths` partition the
input exactly: the sum of all stint lengths equals the number of laps, and
every lap's number lies in exactly one stint's `[start, end]` range. -/
theorem C1_stints_partition_laps (laps : List Lap) (hne : laps ≠ [])
    (hc : contiguous laps = true) :
    sumLens (segmentStints laps) = laps.length ∧
    ∀ x ∈ laps, countInStints x.lapNumber (segmentStints laps) = 1 := by
  match laps, hne with
  | l :: rest, _ =>
    simp only [contiguous] at hc
    constructor
    · have h := segGo_sumLens rest l l.lapNumber l.compound (Nat.le_refl _) hc
      simp only [segmentStints, h, List.length_cons]
      omega
    · intro x hx
      have hb := mem_lapNumber_bounds rest l x hc hx
      have h := segGo_countInStints rest l l.lapNumber l.compound x.lapNumber
        (Nat.le_refl _) hc
      simp only [segmentStints]
      rw [h, if_pos ⟨hb.1, hb.2⟩]

/-- The second lap of the witness sequence for C1. -/
def C1wLap2 : Lap := ⟨"HAM", 5, "MEDIUM", 1, 92, 30, 2, false, true⟩

/-- Witness laps for C1: contiguous laps 4, 5, 6; lap 5 is pit-in and lap 6
pit-out, so segmentation yields stints `[4,5]` and `[6,6]`. -/
def C1wLaps : List Lap :=
  [⟨"HAM", 4, "MEDIUM", 0, 91, 30, 1, false, false⟩,
   C1wLap2,
   ⟨"HAM", 6, "HARD", 0, 95, 30, 5, true, false⟩]

theorem C1_stints_partition_laps_witness :
    sumLens (segmentStints C1wLaps) = 3 ∧
      countInStints C1wLap2.lapNumber (segmentStints C1wLaps) = 1 :=
  ⟨(C1_stints_partition_laps C1wLaps (by decide) (by decide)).1,
   (C1_stints_partition_laps C1wLaps (by decide) (by decide)).2 C1wLap2 (by decide)⟩

/-- The representative-lap filter of `DataProcessor::new` (data.rs line 72):
laps that are neither pit-in nor pit-out. -/
def nonPitLaps (laps : List Lap) : List Lap :=
  laps.filter (fun d => !d.isPitInLap && !d.isPitOutLap)

/-- `min_lap` of data.rs lines 71–74: the minimum lap time over the
representative (non-pit) laps, `none` when there is no such lap. -/
def minNonPitTime (laps : List Lap) : Option ℚ :=
  ((nonPitLaps laps).map (fun d => d.lapTimeSeconds)).min?

/-- data.rs lines 76–77: `let delta = min_lap.unwrap_or(0.0)` and every
lap's `time_delta` becomes `lap_time_seconds - delta`. -/
def applyDelta (laps : List Lap) : List Lap :=
  let base := (minNonPitTime laps).getD 0
  laps.map (fun l =>
    ⟨l.driver, l.lapNumber, l.compound, l.tyreLife, l.lapTimeSeconds,
     l.trackTemp, l.lapTimeSeconds - base, l.isPitOutLap, l.isPitInLap⟩)

theorem rat_min?_le_of_mem {l : List ℚ} {a : ℚ} (h : a ∈ l) :
    ∃ b, l.min? = some b ∧ b ≤ a := by
  have hne : l ≠ [] := List.ne_nil_of_mem h
  obtain ⟨m, hm⟩ := Option.isSome_iff_exists.mp (by
    rw [Option.isSome_iff_ne_none]
    intro hn
    exact hne (List.min?_eq_none_iff.mp hn))
  refine ⟨m, hm, ?_⟩
  haveI : Std.Antisymm fun x1 x2 : ℚ => x1 ≤ x2 := ⟨fun h1 h2 => le_antisymm h1 h2⟩
  have hch := (List.min?_eq_some_iff (fun a => le_refl a)
    (fun a b => min_choice a b) (fun a b c => le_min_iff)).mp hm
  exact hch.2 a h

/-- A driver whose non-pit lap takes 100 s while the following pit-in lap
takes 90 s: the pit lap's delta is computed against the non-pit minimum. -/
def C4exLaps : List Lap :=
  [⟨"ALO", 1, "MEDIUM", 0, 100, 30, 0, false, false⟩,
   ⟨"ALO", 2, "MEDIUM", 1, 90, 30, 0, false, true⟩]

/-- C4 counterexample: the deltas computed by `DataProcessor::new` on
`C4exLaps` are `[0, -10]` — a pit-in lap faster than the driver's best
non-pit lap receives a negative `time_delta`, so "for every lap the
computed time_delta is non-negative" is false. -/
theorem C4_counterexample :
    ((applyDelta C4exLaps).map (fun l => l.timeDelta)) = [0, -10] ∧
      ¬ (∀ l ∈ applyDelta C4exLaps, 0 ≤ l.timeDelta) := by
  exact ⟨by with_unfolding_all decide, by with_unfolding_all decide⟩

/-- C4 (amended): every lap that is neither pit-in nor pit-out has
non-negative `time_delta` (its time is at least the driver's minimum
non-pit time); and when no representative (non-pit) lap exists, the delta
is computed against the sentinel 0.0, so it equals the raw lap time — a
finite value — and every such lap carries a pit flag, so downstream
filtering (which drops pit-flagged laps) still excludes it. -/
theorem C4_delta_nonneg_for_nonpit (laps : List Lap) (l : Lap)
    (hl : l ∈ applyDelta laps) :
    ((!l.isPitInLap && !l.isPitOutLap) = true → 0 ≤ l.timeDelta) ∧
    (minNonPitTime laps = none →
      l.timeDelta = l.lapTimeSeconds ∧ (l.isPitInLap || l.isPitOutLap) = true) := by
  simp only [applyDelta] at hl
  obtain ⟨l0, hl0, rfl⟩ := List.mem_map.mp hl
  constructor
  · intro hflag
    have hmem : l0 ∈ nonPitLaps laps := List.mem_filter.mpr ⟨hl0, hflag⟩
    have hmemt : l0.lapTimeSeconds ∈ (nonPitLaps laps).map (fun d => d.lapTimeSeconds) :=
      List.mem_map.mpr ⟨l0, hmem, rfl⟩
    obtain ⟨m, hm, hle⟩ := rat_min?_le_of_mem hmemt
    simp only [minNonPitTime, hm, Option.getD_some]
    simp only [sub_nonneg]
    exact hle
  · intro hn
    have hempty : nonPitLaps laps = [] := by
      have hmap : ((nonPitLaps laps).map (fun d => d.lapTimeSeconds)).min? = none := hn
      exact List.map_eq_nil_iff.mp (List.min?_eq_none_iff.mp hmap)
    constructor
    · simp only [hn, Option.getD_none, sub_zero]
    · have hnot : ¬ ((!l0.isPitInLap && !l0.isPitOutLap) = true) := by
        intro hflag
        have : l0 ∈ nonPitLaps laps := List.mem_filter.mpr ⟨hl0, hflag⟩
        rw [hempty] at this
        exact List.not_mem_nil l0 this
      simp only [Bool.and_eq_true, Bool.not_eq_true', Bool.or_eq_true]
      simp only [Bool.and_eq_true, Bool.not_eq_true'] at hnot
      by_cases h1 : l0.isPitInLap = true
      · exact Or.inl h1
      · right
        by_cases h2 : l0.isPitOutLap = true
        · exact h2
        · exact absurd ⟨by simpa using h1, by simpa using h2⟩ hnot

/-- The single non-pit witness lap for C4 (delta 0 after processing). -/
def C4wLapA : Lap := ⟨"BOT", 1, "HARD", 0, 100, 30, 0, false, false⟩

/-- The pit-out witness lap for C4 after processing: with no representative
lap in its list, its delta equals its raw lap time 95. -/
def C4wLapB : Lap := ⟨"BOT", 1, "HARD", 0, 95, 30, 95, true, false⟩

theorem C4_delta_nonneg_for_nonpit_witness :
    0 ≤ C4wLapA.timeDelta ∧ C4wLapB.timeDelta = C4wLapB.lapTimeSeconds :=
  ⟨(C4_delta_nonneg_for_nonpit [C4wLapA] C4wLapA
      (by with_unfolding_all decide)).1 (by decide),
   ((C4_delta_nonneg_for_nonpit [⟨"BOT", 1, "HARD", 0, 95, 30, 7, true, false⟩]
      C4wLapB (by with_unfolding_all decide)).2 (by with_unfolding_all decide)).1⟩

/-- Coefficients of one fitted regression (`FittedLinearRegression<f64>`):
weights for the feature vector `[tyre age, track temp, tyre age²]` plus the
intercept. -/
structure Coeffs where
  wAge : ℚ
  wTemp : ℚ
  wAge2 : ℚ
  intercept : ℚ
  deriving Repr, DecidableEq

/-- `DegradationModel` (model.rs lines 7–10): one optional fitted
regression per tracked compound. -/
structure DegradationModel where
  hard_model : Option Coeffs
  medium_model : Option Coeffs
  deriving Repr, DecidableEq

/-- Evaluating a fitted regression on the feature vector
`[tyre_lap, temp, tyre_lap²]` built at model.rs line 47. -/
def evalModel (c : Coeffs) (tyreLap : Nat) (temp : ℚ) : ℚ :=
  c.wAge * (tyreLap : ℚ) + c.wTemp * temp + c.wAge2 * ((tyreLap : ℚ) * (tyreLap : ℚ)) +
    c.intercept

/-- `comp.to_uppercase()` modelled character-wise (the compound strings in
play are ASCII, where Rust's Unicode uppercasing agrees with per-character
uppercasing). -/
def upperStr (s : String) : String := ⟨s.data.map Char.toUpper⟩

/-- `DegradationModel::predict_degradation` (model.rs lines 39–50): match on
the uppercased compound; unrecognized compounds return 0.0 immediately; a
missing model yields 0.0 (`map_or`); otherwise the regression value is
clamped from below by 0.0 (`.max(0.0)`). -/
def predict_degradation (m : DegradationModel) (tyreLap : Nat) (temp : ℚ)
    (comp : String) : ℚ :=
  if upperStr comp = "HARD" then
    match m.hard_model with
    | none => 0
    | some c => max (evalModel c tyreLap temp) 0
  else if upperStr comp = "MEDIUM" then
    match m.medium_model with
    | none => 0
    | some c => max (evalModel c tyreLap temp) 0
  else 0

/-- The lap filter applied before model building (`DegradationModel::new`,
model.rs lines 14–16, and again in main.rs lines 28–31): drop pit-out and
pit-in laps. The `time_delta.is_finite()` conjunct is identically true in
the rational embedding, where every delta is a finite rational. -/
def modelFilter (laps : List Lap) : List Lap :=
  laps.filter (fun d => !d.isPitOutLap && !d.isPitInLap)

/-- `DegradationModel::build_model` (model.rs lines 23–37): keep the laps of
the requested compound; refuse to fit below 5 samples; otherwise delegate
to the least-squares solver, abstracted as the parameter `fit` (linfa's
`LinearRegression::fit` — an external crate, not part of this repository —
which may itself fail, hence `Option`). -/
def build_model (fit : List Lap → Option Coeffs) (data : List Lap)
    (comp : String) : Option Coeffs :=
  let comp_data := data.filter (fun d => d.compound == comp)
  if comp_data.length < 5 then none else fit comp_data

/-- `DegradationModel::new` (model.rs lines 13–21). -/
def DegradationModel.build (fit : List Lap → Option Coeffs) (laps : List Lap) :
    DegradationModel :=
  let data := modelFilter laps
  ⟨build_model fit data "HARD", build_model fit data "MEDIUM"⟩

/-- C7: for every model, every tyre age, every temperature and every
compound string, `predict_degradation` is non-negative: fitted-model
results are clamped at a floor of 0.0, and unrecognized-compound or
model-unavailable queries return 0.0. -/
theorem C7_predict_nonneg (m : DegradationModel) (tyreLap : Nat) (temp : ℚ)
    (comp : String) : 0 ≤ predict_degradation m tyreLap temp comp := by
  unfold predict_degradation
  split_ifs
  · cases m.hard_model with
    | none => exact le_refl 0
    | some c => exact le_max_right _ _
  · cases m.medium_model with
    | none => exact le_refl 0
    | some c => exact le_max_right _ _
  · exact le_refl 0

/-- C8: the compound lookup of `predict_degradation` is case-insensitive —
the result depends on the compound string only through its uppercasing; a
compound whose uppercasing is outside {HARD, MEDIUM} yields exactly 0
(deterministically, never an error — the function is total); and a tracked
compound whose model was not fit yields 0 as well. -/
theorem C8_lookup_case_insensitive :
    (∀ (m : DegradationModel) (a : Nat) (t : ℚ) (c1 c2 : String),
        upperStr c1 = upperStr c2 →
        predict_degradation m a t c1 = predict_degradation m a t c2) ∧
    (∀ (m : DegradationModel) (a : Nat) (t : ℚ) (c : String),
        upperStr c ≠ "HARD" → upperStr c ≠ "MEDIUM" →
        predict_degradation m a t c = 0) ∧
    (∀ (m : DegradationModel) (a : Nat) (t : ℚ) (c : String),
        upperStr c = "HARD" → m.hard_model = none →
        predict_degradation m a t c = 0) ∧
    (∀ (m : DegradationModel) (a : Nat) (t : ℚ) (c : String),
        upperStr c = "MEDIUM" → m.medium_model = none →
        predict_degradation m a t c = 0) := by
  refine ⟨?_, ?_, ?_, ?_⟩
  · intro m a t c1 c2 h
    unfold predict_degradation
    rw [h]
  · intro m a t c h1 h2
    unfold predict_degradation
    rw [if_neg h1, if_neg h2]
  · intro m a t c h1 h2
    unfold predict_degradation
    rw [if_pos h1, h2]
  · intro m a t c h1 h2
    unfold predict_degradation
    rw [h1]
    rw [if_neg (by decide), if_pos rfl, h2]

/-- A model with neither compound fitted, used to witness C8. -/
def C8wModel : DegradationModel := ⟨none, none⟩

theorem C8_lookup_case_insensitive_witness :
    predict_degradation C8wModel 3 30 "Hard" = predict_degradation C8wModel 3 30 "hARD" ∧
    predict_degradation C8wModel 3 30 "SOFT" = 0 ∧
    predict_degradation C8wModel 3 30 "hard" = 0 ∧
    predict_degradation C8wModel 3 30 "medium" = 0 :=
  ⟨C8_lookup_case_insensitive.1 C8wModel 3 30 "Hard" "hARD" (by decide),
   C8_lookup_case_insensitive.2.1 C8wModel 3 30 "SOFT" (by decide) (by decide),
   C8_lookup_case_insensitive.2.2.1 C8wModel 3 30 "hard" (by decide) rfl,
   C8_lookup_case_insensitive.2.2.2 C8wModel 3 30 "medium" (by decide) rfl⟩
/-- C9: building a model for a compound with fewer than 5 qualifying laps
(laps of that compound that are neither pit-in nor pit-out; finite delta
holds for every rational) returns `none`, for every possible solver. -/
theorem C9_min_samples_refuses_fit (fit : List Lap → Option Coeffs)
    (laps : List Lap) (comp : String)
    (h : ((modelFilter laps).filter (fun d => d.compound == comp)).length < 5) :
    build_model fit (modelFilter laps) comp = none := by
  unfold build_model
  simp only [if_pos h]

theorem C9_min_samples_refuses_fit_witness :
    build_model (fun _ => some ⟨1, 0, 0, 0⟩) (modelFilter []) "HARD" = none :=
  C9_min_samples_refuses_fit (fun _ => some ⟨1, 0, 0, 0⟩) [] "HARD" (by decide)

/-- The one-stop template shape of strategy.rs lines 22–24: first stint
`s1` from a rounded average, `s2 = total_laps.saturating_sub(s1)`
(`Nat` subtraction), constructed only when both stints are positive and
sum to the total. -/
def strat1S (c1 c2 : String) (s1 total : Nat) : Option (List (String × Nat)) :=
  let s2 := total - s1
  if s1 > 0 && s2 > 0 && s1 + s2 == total then some [(c1, s1), (c2, s2)] else none

/-- The two-stop template shape of strategy.rs lines 25–26:
`rem = total_laps.saturating_sub(s1)`, `s2 = (rem as f64 / 2.0).round() as
u32` — rounding half away from zero, hence `(rem + 1) / 2` on naturals —
and `s3 = rem.saturating_sub(s2)`. -/
def strat2S (c1 c2 c3 : String) (s1 total : Nat) : Option (List (String × Nat)) :=
  let rem := total - s1
  let s2 := (rem + 1) / 2
  let s3 := rem - s2
  if s1 > 0 && s2 > 0 && s3 > 0 && s1 + s2 + s3 == total then
    some [(c1, s1), (c2, s2), (c3, s3)]
  else none

/-- The five named strategy templates of strategy.rs lines 21–27, with
`avgMed`/`avgHard` the rounded average stint lengths. -/
def strategies (avgMed avgHard total : Nat) :
    List (String × Option (List (String × Nat))) :=
  [("1S (M-H)", strat1S "MEDIUM" "HARD" avgMed total),
   ("1S (H-M)", strat1S "HARD" "MEDIUM" avgHard total),
   ("1S (H-H)", strat1S "HARD" "HARD" avgHard total),
   ("2S (M-H-H)", strat2S "MEDIUM" "HARD" "HARD" avgMed total),
   ("2S (H-M-M)", strat2S "HARD" "MEDIUM" "MEDIUM" avgHard total)]

/-- The re-check at strategy.rs lines 31–32: a constructed candidate is
scored only when its stint lengths sum to the total and none is zero
(`continue` otherwise). -/
def passesRecheck (total : Nat) (st : List (String × Nat)) : Bool :=
  ((st.map Prod.snd).sum == total) && !(st.any (fun p => p.2 == 0))

/-- A template's candidate is excluded from the output when it was not
constructed (`None`) or fails the re-check. -/
def rejected (total : Nat) (o : Option (List (String × Nat))) : Bool :=
  match o with
  | none => true
  | some st => !passesRecheck total st

/-- The candidates that reach the scoring loop and the printed output. -/
def acceptedStrategies (avgMed avgHard total : Nat) :
    List (String × List (String × Nat)) :=
  (strategies avgMed avgHard total).filterMap (fun p =>
    p.2.bind (fun st => if passesRecheck total st then some (p.1, st) else none))

/-- The stint lengths a one-stop template computes before validation. -/
def rawLens1S (s1 total : Nat) : List Nat := [s1, total - s1]

/-- The stint lengths a two-stop template computes before validation. -/
def rawLens2S (s1 total : Nat) : List Nat :=
  [s1, (total - s1 + 1) / 2, (total - s1) - (total - s1 + 1) / 2]

/-- C2 counterexample: with total laps 56 and a first stint of 15, the
remainder 41 is odd and the code assigns the extra lap to the middle stint
(21) rather than the final stint (20): the template output is
`[15, 21, 20]`, not the claimed `[15, 20, 21]`. -/
theorem C2_counterexample :
    strat2S "MEDIUM" "HARD" "HARD" 15 56 =
      some [("MEDIUM", 15), ("HARD", 21), ("HARD", 20)] ∧
    strat2S "MEDIUM" "HARD" "HARD" 15 56 ≠
      some [("MEDIUM", 15), ("HARD", 20), ("HARD", 21)] :=
  ⟨by decide, by decide⟩

/-- C2 (amended): for every two-stop strategy template, the laps remaining
after the first stint are split equally between the two remaining stints,
and when that remainder is odd the extra lap is assigned to the middle
(second) stint: the second stint gets `⌈rem/2⌉` laps and the final stint
`⌊rem/2⌋`. -/
theorem C2_two_stop_extra_to_middle (c1 c2 c3 : String) (s1 total : Nat)
    (st : List (String × Nat)) (h : strat2S c1 c2 c3 s1 total = some st) :
    st.map Prod.snd = [s1, (total - s1 + 1) / 2, (total - s1) / 2] ∧
    (total - s1 + 1) / 2 + (total - s1) / 2 = total - s1 ∧
    ((total - s1) % 2 = 1 → (total - s1 + 1) / 2 = (total - s1) / 2 + 1) ∧
    ((total - s1) % 2 = 0 → (total - s1 + 1) / 2 = (total - s1) / 2) := by
  simp only [strat2S] at h
  split at h
  · rename_i hcond
    simp only [Option.some.injEq] at h
    subst h
    simp only [Bool.and_eq_true, decide_eq_true_eq, beq_iff_eq] at hcond
    refine ⟨?_, by omega, by omega, by omega⟩
    simp only [List.map_cons, List.map_nil]
    have : (total - s1) - (total - s1 + 1) / 2 = (total - s1) / 2 := by omega
    rw [this]
  · exact absurd h (by simp)

theorem C2_two_stop_extra_to_middle_witness :
    [("MEDIUM", 15), ("HARD", 21), ("HARD", 20)].map Prod.snd =
      [15, (56 - 15 + 1) / 2, (56 - 15) / 2] ∧
    (56 - 15 + 1) / 2 + (56 - 15) / 2 = 56 - 15 ∧
    ((56 - 15) % 2 = 1 → (56 - 15 + 1) / 2 = (56 - 15) / 2 + 1) ∧
    ((56 - 15) % 2 = 0 → (56 - 15 + 1) / 2 = (56 - 15) / 2) :=
  C2_two_stop_extra_to_middle "MEDIUM" "HARD" "HARD" 15 56
    [("MEDIUM", 15), ("HARD", 21), ("HARD", 20)] (by decide)

theorem strat1S_some_passes (c1 c2 : String) (s1 total : Nat)
    (st : List (String × Nat)) (h : strat1S c1 c2 s1 total = some st) :
    passesRecheck total st = true := by
  simp only [strat1S] at h
  split at h
  · rename_i hcond
    simp only [Option.some.injEq] at h
    subst h
    simp only [Bool.and_eq_true, decide_eq_true_eq, beq_iff_eq] at hcond
    simp only [passesRecheck, List.map_cons, List.map_nil, List.sum_cons, List.sum_nil,
      List.any_cons, List.any_nil, Bool.and_eq_true, beq_iff_eq, Bool.not_eq_true',
      Bool.or_eq_false_iff, beq_eq_false_iff_ne, ne_eq, and_true]
    omega
  · exact absurd h (by simp)

theorem strat2S_some_passes (c1 c2 c3 : String) (s1 total : Nat)
    (st : List (String × Nat)) (h : strat2S c1 c2 c3 s1 total = some st) :
    passesRecheck total st = true := by
  simp only [strat2S] at h
  split at h
  · rename_i hcond
    simp only [Option.some.injEq] at h
    subst h
    simp only [Bool.and_eq_true, decide_eq_true_eq, beq_iff_eq] at hcond
    simp only [passesRecheck, List.map_cons, List.map_nil, List.sum_cons, List.sum_nil,
      List.any_cons, List.any_nil, Bool.and_eq_true, beq_iff_eq, Bool.not_eq_true',
      Bool.or_eq_false_iff, beq_eq_false_iff_ne, ne_eq, and_true]
    omega
  · exact absurd h (by simp)

theorem rejected_strat1S_iff (c1 c2 : String) (s1 total : Nat) :
    rejected total (strat1S c1 c2 s1 total) = true ↔
      0 ∈ rawLens1S s1 total ∨ (rawLens1S s1 total).sum ≠ total := by
  have hmem : (0 ∈ rawLens1S s1 total ∨ (rawLens1S s1 total).sum ≠ total) ↔
      (s1 = 0 ∨ total - s1 = 0) ∨ s1 + (total - s1) ≠ total := by
    simp only [rawLens1S, List.mem_cons, List.not_mem_nil, or_false, List.sum_cons,
      List.sum_nil, ne_eq]
    omega
  rw [hmem]
  cases ho : strat1S c1 c2 s1 total with
  | none =>
    simp only [rejected]
    simp only [strat1S] at ho
    split at ho
    · exact absurd ho (by simp)
    · rename_i hcond
      simp only [Bool.and_eq_true, decide_eq_true_eq, beq_iff_eq, not_and] at hcond
      constructor
      · intro _
        omega
      · intro _
        trivial
  | some st =>
    have hp := strat1S_some_passes c1 c2 s1 total st ho
    simp only [rejected, hp, Bool.not_true, Bool.false_eq_true, false_iff]
    simp only [strat1S] at ho
    split at ho
    · rename_i hcond
      simp only [Bool.and_eq_true, decide_eq_true_eq, beq_iff_eq] at hcond
      omega
    · exact absurd ho (by simp)

theorem rejected_strat2S_iff (c1 c2 c3 : String) (s1 total : Nat) :
    rejected total (strat2S c1 c2 c3 s1 total) = true ↔
      0 ∈ rawLens2S s1 total ∨ (rawLens2S s1 total).sum ≠ total := by
  have hmem : (0 ∈ rawLens2S s1 total ∨ (rawLens2S s1 total).sum ≠ total) ↔
      (s1 = 0 ∨ (total - s1 + 1) / 2 = 0 ∨ (total - s1) - (total - s1 + 1) / 2 = 0) ∨
        s1 + ((total - s1 + 1) / 2 + ((total - s1) - (total - s1 + 1) / 2)) ≠ total := by
    simp only [rawLens2S, List.mem_cons, List.not_mem_nil, or_false, List.sum_cons,
      List.sum_nil, ne_eq]
    omega
  rw [hmem]
  cases ho : strat2S c1 c2 c3 s1 total with
  | none =>
    simp only [rejected]
    simp only [strat2S] at ho
    split at ho
    · exact absurd ho (by simp)
    · rename_i hcond
      simp only [Bool.and_eq_true, decide_eq_true_eq, beq_iff_eq, not_and] at hcond
      constructor
      · intro _
        omega
      · intro _
        trivial
  | some st =>
    have hp := strat2S_some_passes c1 c2 c3 s1 total st ho
    simp only [rejected, hp, Bool.not_true, Bool.false_eq_true, false_iff]
    simp only [strat2S] at ho
    split at ho
    · rename_i hcond
      simp only [Bool.and_eq_true, decide_eq_true_eq, beq_iff_eq] at hcond
      omega
    · exact absurd ho (by simp)

/-- C5: a strategy candidate is rejected (excluded from the output — the
simulator only `continue`s past it, it never returns an error) if and only
if some computed stint length is zero (lengths are `u32`, so never
negative) or the computed stint lengths do not sum to the total lap count;
and in particular with total laps 56 and average medium stint 14, the
single-stop plan (MEDIUM 14, HARD 42) is accepted, whatever the hard
average. -/
theorem C5_rejected_iff_integrity_violation (total : Nat) :
    (∀ (c1 c2 : String) (s1 : Nat),
      rejected total (strat1S c1 c2 s1 total) = true ↔
        0 ∈ rawLens1S s1 total ∨ (rawLens1S s1 total).sum ≠ total) ∧
    (∀ (c1 c2 c3 : String) (s1 : Nat),
      rejected total (strat2S c1 c2 c3 s1 total) = true ↔
        0 ∈ rawLens2S s1 total ∨ (rawLens2S s1 total).sum ≠ total) ∧
    (∀ avgHard : Nat, ("1S (M-H)", [("MEDIUM", 14), ("HARD", 42)]) ∈
      acceptedStrategies 14 avgHard 56) := by
  refine ⟨fun c1 c2 s1 => rejected_strat1S_iff c1 c2 s1 total,
          fun c1 c2 c3 s1 => rejected_strat2S_iff c1 c2 c3 s1 total,
          fun avgHard => ?_⟩
  refine List.mem_filterMap.mpr ⟨("1S (M-H)", strat1S "MEDIUM" "HARD" 14 56), ?_, ?_⟩
  · simp [strategies]
  · decide

/-- C10: every candidate a strategy template actually constructs
(evaluates to `Some`) already has all stint lengths positive and summing
exactly to the total lap count, so the post-construction re-check at
strategy.rs lines 31–32 never excludes a constructed candidate. -/
theorem C10_constructed_passes_recheck (avgMed avgHard total : Nat)
    (nm : String) (o : Option (List (String × Nat))) (st : List (String × Nat))
    (hmem : (nm, o) ∈ strategies avgMed avgHard total) (ho : o = some st) :
    passesRecheck total st = true := by
  subst ho
  simp only [strategies, List.mem_cons, List.not_mem_nil, or_false,
    Prod.mk.injEq] at hmem
  rcases hmem with ⟨_, h⟩ | ⟨_, h⟩ | ⟨_, h⟩ | ⟨_, h⟩ | ⟨_, h⟩
  · exact strat1S_some_passes _ _ _ _ _ h.symm
  · exact strat1S_some_passes _ _ _ _ _ h.symm
  · exact strat1S_some_passes _ _ _ _ _ h.symm
  · exact strat2S_some_passes _ _ _ _ _ _ h.symm
  · exact strat2S_some_passes _ _ _ _ _ _ h.symm

theorem C10_constructed_passes_recheck_witness :
    passesRecheck 56 [("MEDIUM", 14), ("HARD", 42)] = true :=
  C10_constructed_passes_recheck 14 42 56 "1S (M-H)"
    (some [("MEDIUM", 14), ("HARD", 42)]) [("MEDIUM", 14), ("HARD", 42)]
    (by decide) rfl

/-- The per-stint degradation sum of strategy.rs lines 39–41:
`(1..=num_laps).map(|tyre_lap| model.predict_degradation(tyre_lap, temp,
comp)).sum()`. -/
def stintDeltaSum (m : DegradationModel) (temp : ℚ) (comp : String)
    (numLaps : Nat) : ℚ :=
  ((List.range numLaps).map (fun k => predict_degradation m (k + 1) temp comp)).sum

/-- The scoring loop of strategy.rs lines 34–43: walk the stints with their
enumeration index `i` and the accumulators `total_delta` and `pits`; for
`i > 0` add the pit loss and count a stop; then add the stint's
degradation sum. -/
def scoreGo (m : DegradationModel) (pitLoss temp : ℚ) :
    Nat → ℚ → Nat → List (String × Nat) → ℚ × Nat
  | _, total, pits, [] => (total, pits)
  | i, total, pits, (comp, numLaps) :: rest =>
    let total2 := if i > 0 then total + pitLoss else total
    let pits2 := if i > 0 then pits + 1 else pits
    scoreGo m pitLoss temp (i + 1) (total2 + stintDeltaSum m temp comp numLaps)
      pits2 rest

/-- `total_delta` and the stop count computed for one accepted candidate. -/
def totalScore (m : DegradationModel) (pitLoss temp : ℚ)
    (stints : List (String × Nat)) : ℚ × Nat :=
  scoreGo m pitLoss temp 0 0 0 stints

theorem scoreGo_closed_form (m : DegradationModel) (pitLoss temp : ℚ)
    (stints : List (String × Nat)) : ∀ (i : Nat) (total : ℚ) (pits : Nat),
    1 ≤ i →
    scoreGo m pitLoss temp i total pits stints =
      (total + (stints.map (fun p => stintDeltaSum m temp p.1 p.2)).sum +
        pitLoss * (stints.length : ℚ), pits + stints.length) := by
  induction stints with
  | nil =>
    intro i total pits _
    simp [scoreGo]
  | cons p rest ih =>
    intro i total pits hi
    obtain ⟨comp, numLaps⟩ := p
    simp only [scoreGo, if_pos (by omega : i > 0)]
    rw [ih (i + 1) _ _ (by omega)]
    simp only [List.map_cons, List.sum_cons, List.length_cons, Prod.mk.injEq]
    constructor
    · push_cast
      ring
    · omega

/-- C6: for every model and every accepted candidate, the computed total
score is exactly the sum over the stints, taken in order, of the stint's
predicted degradation — `predict_degradation` summed for tyre age running
from 1 through the stint length, the age resetting at each stint — plus
the pit penalty once per stint transition (`stints.length - 1` times,
never for the first stint); the stop count equals the number of
transitions. -/
theorem C6_total_score_formula (m : DegradationModel) (pitLoss temp : ℚ)
    (stints : List (String × Nat)) :
    totalScore m pitLoss temp stints =
      ((stints.map (fun p => stintDeltaSum m temp p.1 p.2)).sum +
        pitLoss * ((stints.length - 1 : ℕ) : ℚ), stints.length - 1) ∧
    ∀ (comp : String) (numLaps : Nat),
      stintDeltaSum m temp comp numLaps =
        ∑ a ∈ Finset.Icc 1 numLaps, predict_degradation m a temp comp := by
  constructor
  · cases stints with
    | nil => simp [totalScore, scoreGo]
    | cons p rest =>
      obtain ⟨comp, numLaps⟩ := p
      simp only [totalScore, scoreGo, if_neg (by omega : ¬ (0 > 0))]
      rw [scoreGo_closed_form m pitLoss temp rest 1 _ _ (le_refl 1)]
      simp only [List.map_cons, List.sum_cons, List.length_cons, Prod.mk.injEq,
        Nat.add_sub_cancel]
      constructor
      · ring
      · omega
  · intro comp numLaps
    induction numLaps with
    | zero => simp [stintDeltaSum]
    | succ n ihn =>
      rw [Finset.sum_Icc_succ_top (by omega : 1 ≤ n + 1)]
      rw [← ihn]
      simp only [stintDeltaSum, List.range_succ, List.map_append, List.sum_append,
        List.map_cons, List.map_nil, List.sum_cons, List.sum_nil, add_zero]
